import Mathlib

/-!
Verification development for the pi-tasks terminal task-list extension.

The TypeScript sources are shallowly embedded in Lean: strings are modelled
as `List Char` (JavaScript `.length` counts UTF-16 code units; every string
manipulated here stays within the basic multilingual plane, where code units
and characters coincide), optional values (`undefined`) as `Option`,
JavaScript numbers holding priorities as `Int`, and functions that `throw`
as `Except`.  Each definition mirrors one function of the source tree;
the source file and function are named in its doc comment.
-/

namespace PiTasks

/-- JS `String.prototype.split(sep)` for a single-character separator:
splits into the (possibly empty) parts between occurrences of `sep`;
the result is never empty (`"".split(sep) = [""]`). -/
def splitOnChar (sep : Char) : List Char → List (List Char)
  | [] => [[]]
  | c :: cs =>
    let r := splitOnChar sep cs
    if c = sep then [] :: r else (c :: r.headD []) :: r.tail

/-- Whitespace recognised by JS `String.prototype.trim` (the characters that
occur in this codebase's data). -/
def isJsWhitespace (c : Char) : Bool :=
  c = ' ' || c = '\t' || c = '\n' || c = '\r' || c = '\x0b' || c = '\x0c'

/-- JS `String.prototype.trim`: drop whitespace from both ends. -/
def trimChars (l : List Char) : List Char :=
  ((l.dropWhile isJsWhitespace).reverse.dropWhile isJsWhitespace).reverse

/-- Model of JS `String.prototype.toLowerCase` (ASCII case folding; all
strings compared case-insensitively in this codebase are ASCII). -/
def lowerChars (l : List Char) : List Char :=
  l.map Char.toLower

/-- After `'\x1b' '['`, consume the `[0-9;]*` body of a CSI colour sequence
up to the terminating `'m'`; `none` if the sequence is not of that shape. -/
def skipCsiBody : List Char → Option (List Char)
  | [] => none
  | c :: cs =>
    if c.isDigit || c = ';' then skipCsiBody cs
    else if c = 'm' then some cs
    else none

/-- Try to match `'[' [0-9;]* 'm'` (the tail of an ANSI colour escape) at the
head of the list, returning the remainder after the match. -/
def matchCsi : List Char → Option (List Char)
  | [] => none
  | c :: cs => if c = '[' then skipCsiBody cs else none

/-- Fuelled scanner behind `stripAnsiChars`; with `fuel ≥ l.length` it
removes every leftmost non-overlapping match of `\x1b\[[0-9;]*m`, exactly as
the JS global-regex replace does (each step consumes at least one character,
so the fuel `l.length` is never exhausted). -/
def stripAnsiFuel : Nat → List Char → List Char
  | 0, _ => []
  | _ + 1, [] => []
  | fuel + 1, c :: cs =>
    if c = '\x1b' then
      match matchCsi cs with
      | some rest => stripAnsiFuel fuel rest
      | none => c :: stripAnsiFuel fuel cs
    else c :: stripAnsiFuel fuel cs

/-- Function `stripAnsi` from `src/src/models/list-item.ts` /
`src/beads-task-view-model.ts`:
`str.replace(/\x1b\[[0-9;]*m/g, "")`. -/
def stripAnsiChars (l : List Char) : List Char :=
  stripAnsiFuel l.length l

end PiTasks

namespace PiTasks

/-- Closed status enumeration (`IssueStatus` / `TaskStatus` in the source).
`open` is a Lean keyword, hence the trailing underscore. -/
inductive IssueStatus where
  | open_
  | in_progress
  | blocked
  | deferred
  | closed
deriving DecidableEq

/-- The literal string value of a status (statuses are string literals in
TypeScript). -/
def IssueStatus.str : IssueStatus → List Char
  | .open_ => "open".data
  | .in_progress => "in_progress".data
  | .blocked => "blocked".data
  | .deferred => "deferred".data
  | .closed => "closed".data

/-- The `Issue` / `BdIssue` / `Task` record (fields this development needs;
the read-only metadata fields are never consulted by the modelled code). -/
structure Issue where
  id : List Char
  title : List Char
  description : Option (List Char)
  status : IssueStatus
  priority : Option Int
  issue_type : Option (List Char)
deriving DecidableEq

/-- Constant `DESCRIPTION_PART_SEPARATOR = "␟"` from
`src/src/models/list-item.ts` / `src/beads-task-view-model.ts`. -/
def DESCRIPTION_PART_SEPARATOR : Char := '␟'

/-- Function `encodeDescription` (`src/src/models/list-item.ts`, also
`encodeIssueDescription` in `src/beads-task-view-model.ts`):
``summary ? `${meta}${SEP}${summary}` : meta``.  A JS falsy check: an
*empty* summary string behaves like an absent one. -/
def encodeDescription (meta : List Char) (summary : Option (List Char)) : List Char :=
  match summary with
  | some s => if s.isEmpty then meta else meta ++ DESCRIPTION_PART_SEPARATOR :: s
  | none => meta

/-- Function `decodeDescription` (`src/src/models/list-item.ts`, also
`decodeIssueDescription` in `src/beads-task-view-model.ts`):
`const [meta, summary] = text.split(SEP); return { meta: meta || "", summary }`. -/
def decodeDescription (text : List Char) : List Char × Option (List Char) :=
  let parts := splitOnChar DESCRIPTION_PART_SEPARATOR text
  (parts.headD [], parts[1]?)

/-- Constant `ANSI_RESET = "\x1b[0m"` (`src/src/models/task.ts`,
`src/src/models/issue.ts`, `src/beads-task-view-model.ts`). -/
def ANSI_RESET : List Char := "\x1b[0m".data

/-- The `PRIORITY_COLORS` lookup (`src/src/models/task.ts` lines 33–39 and the
identical tables in `issue.ts` / `beads-task-view-model.ts`).  Indexing a
`Record<number, string>` at a missing key yields `undefined`, modelled by
`none`. -/
def PRIORITY_COLORS (p : Int) : Option (List Char) :=
  if p = 0 then some "\x1b[38;5;196m".data
  else if p = 1 then some "\x1b[38;5;208m".data
  else if p = 2 then some "\x1b[38;5;34m".data
  else if p = 3 then some "\x1b[38;5;33m".data
  else if p = 4 then some "\x1b[38;5;245m".data
  else none

/-- JS number-to-string coercion `${n}` for the integers this code handles. -/
def jsNumToChars (i : Int) : List Char := (toString i).data

/-- Function `formatTaskPriority` (`src/src/models/task.ts` lines 52–56; identical to
`formatIssuePriority` in `issue.ts` and `beads-task-view-model.ts`):
returns `"P?"` for `undefined`/`null`, otherwise
```${PRIORITY_COLORS[priority] ?? ""}P${priority}${ANSI_RESET}```. -/
def formatTaskPriority (priority : Option Int) : List Char :=
  match priority with
  | none => "P?".data
  | some p => (PRIORITY_COLORS p).getD [] ++ 'P' :: jsNumToChars p ++ ANSI_RESET

/-- Function `formatIssueStatusLabel` (`src/beads-task-view-model.ts` lines 91–93):
`status.replaceAll("_", " ")`. -/
def formatIssueStatusLabel (status : IssueStatus) : List Char :=
  status.str.map (fun c => if c = '_' then ' ' else c)

/-- Function `matchesFilter` (`src/src/ui/pages/list.ts` lines 37–45; identical in
`src/unnamed/part_007`): the lowercased term is tested with `includes`
against the lowercased title, description (`?? ""`), id, and raw status
value. -/
def matchesFilter (issue : Issue) (term : List Char) : Bool :=
  let lower := lowerChars term
  decide (lower <:+: lowerChars issue.title) ||
  decide (lower <:+: lowerChars (issue.description.getD [])) ||
  decide (lower <:+: lowerChars issue.id) ||
  decide (lower <:+: lowerChars issue.status.str)

/-- The visible task set of the list loop (`src/src/ui/pages/list.ts`
lines 70–72): ``filterTerm ? displayIssues.filter(i => matchesFilter(i,
filterTerm)) : displayIssues`` — the empty term is falsy, so no filter is
applied. -/
def visibleIssues (issues : List Issue) (term : List Char) : List Issue :=
  if term.isEmpty then issues else issues.filter (fun i => matchesFilter i term)

/-- The recurring JS default `value || "task"`: an absent or empty type
falls back to the literal `"task"`. -/
def orTaskChars (o : Option (List Char)) : List Char :=
  match o with
  | some t => if t.isEmpty then "task".data else t
  | none => "task".data

/-- The `Task` record of `src/src/models/task.ts` (editable fields; the
read-only metadata is never consulted by the modelled code). -/
structure Task where
  id : List Char
  title : List Char
  description : Option (List Char)
  status : IssueStatus
  priority : Option Int
  taskType : Option (List Char)
deriving DecidableEq

/-- The form draft handed to `onSave` (`src/src/extension.ts`; the
`src/unnamed/part_005` variant names the last field `issueType`). -/
structure TaskDraft where
  title : List Char
  description : List Char
  status : IssueStatus
  priority : Option Int
  taskType : Option (List Char)
deriving DecidableEq

/-- Record `TaskUpdate` — the partial patch sent to the backend
(`src/src/backend/api.ts`); a field is `none` when the key is absent from
the patch object. -/
structure TaskUpdate where
  title : Option (List Char) := none
  description : Option (List Char) := none
  status : Option IssueStatus := none
  priority : Option Int := none
  taskType : Option (List Char) := none
deriving DecidableEq

/-- Function `buildTaskUpdate` (`src/src/extension.ts` lines 37–68; the argument-list
variant `buildIssueUpdateArgs` in `src/unnamed/part_005`/`part_007` diffs
the same fields): each draft field is added to the patch only when it
differs from the task's current value, titles compared after trimming,
an absent task description compared as `""`, and a changed priority added
only when the draft priority is defined. -/
def buildTaskUpdate (previous : Task) (next : TaskDraft) : TaskUpdate :=
  let u : TaskUpdate := {}
  let u := if trimChars next.title ≠ trimChars previous.title
    then { u with title := some (trimChars next.title) } else u
  let u := if next.description ≠ previous.description.getD []
    then { u with description := some next.description } else u
  let u := if next.status ≠ previous.status
    then { u with status := some next.status } else u
  let u := if next.priority ≠ previous.priority ∧ next.priority ≠ none
    then { u with priority := next.priority } else u
  let u := if next.taskType ≠ previous.taskType
    then { u with taskType := some (orTaskChars next.taskType) } else u
  u

/-- Function `hasTaskUpdate` (`src/src/extension.ts` lines 70–72):
`Object.keys(update).length > 0`. -/
def hasTaskUpdate (u : TaskUpdate) : Bool :=
  u.title.isSome || u.description.isSome || u.status.isSome ||
  u.priority.isSome || u.taskType.isSome

/-- Whether the edit-mode `onSave` reaches the backend `update` call
(`src/src/extension.ts` lines 145–156): it returns `false` — issuing no
call — exactly when the computed patch is empty. -/
def editSaveCallsBackend (previous : Task) (draft : TaskDraft) : Bool :=
  hasTaskUpdate (buildTaskUpdate previous draft)

/-- The escape `description.replaceAll("\n", "\\n")` — newline escaping in the
serialized reference (`src/src/lib/task-serialization.ts`). -/
def escapeNewlines (l : List Char) : List Char :=
  l.flatMap (fun c => if c = '\n' then ['\\', 'n'] else [c])

/-- Function `serializeTask` (`src/src/lib/task-serialization.ts` lines 41–56; the
file's other revision also kebab-cases the status, which is the identity on
every status exercised here): a single-line tagged reference string with a
missing priority rendered `unknown`, a missing type defaulted to `"task"`,
and the trimmed description appended only when non-empty. -/
def serializeTask (t : Task) : List Char :=
  let parts := [
    "id=".data ++ t.id,
    "title=\"".data ++ t.title ++ "\"".data,
    "status=".data ++ t.status.str,
    "priority=".data ++
      (match t.priority with
       | some p => jsNumToChars p
       | none => "unknown".data),
    "type=".data ++ orTaskChars t.taskType]
  let parts :=
    match t.description with
    | some d =>
      let d := trimChars d
      if d.isEmpty then parts
      else parts ++ ["description=\"".data ++ escapeNewlines d ++ "\"".data]
    | none => parts
  "task(".data ++ List.intercalate ", ".data parts ++ ")".data

/-- The first save of the create flow (`src/unnamed/part_005` lines
224–248, matching `create` in `src/src/backend/adapters/beads.ts`): an
empty trimmed title throws `"Title is required"` before `execBd` is ever
reached (`.error`); otherwise the `bd create` argument list is built with
the trimmed title, the priority defaulted to 2, the type defaulted to
`"task"`, and `--description` spliced in at index 3 only when the draft
description is non-empty. -/
def createIssueFirstSave (draft : TaskDraft) : Except (List Char) (List (List Char)) :=
  let title := trimChars draft.title
  if title.isEmpty then .error "Title is required".data
  else
    let createArgs := ["create".data, "--title".data, title,
      "--priority".data, jsNumToChars (draft.priority.getD 2),
      "--type".data, orTaskChars draft.taskType, "--json".data]
    let createArgs :=
      if 0 < draft.description.length
      then createArgs.take 3 ++ ["--description".data, draft.description] ++ createArgs.drop 3
      else createArgs
    .ok createArgs

/-- The ceiling `Math.max(0, allWrapped.length − 7)` of the description
scroll offset (`src/src/ui/pages/list.ts` line 471). -/
def scrollMaxOffset (totalWrapped : Nat) : Int := max 0 ((totalWrapped : Int) - 7)

/-- One `scrollDescription` intent (`src/src/ui/pages/list.ts` lines
472–476; identical in `src/unnamed/part_007` lines 608–612): increment when
`delta > 0` and the offset is below the ceiling, decrement when `delta < 0`
and the offset is above zero, otherwise leave it unchanged.  A selection
change resets the offset to 0 (`updateDescPreview`, line 256). -/
def scrollDescriptionStep (totalWrapped : Nat) (delta : Int) (descScroll : Int) : Int :=
  if 0 < delta ∧ descScroll < scrollMaxOffset totalWrapped then descScroll + 1
  else if delta < 0 ∧ 0 < descScroll then descScroll - 1
  else descScroll

/-- The zero-match guard at the top of the list loop
(`src/src/ui/pages/list.ts` lines 74–78): when the visible set is empty and
the filter term non-empty, the controller notifies the user (`true`) and
clears the term instead of rendering; otherwise it renders with the term
kept (`false`). -/
def filterGuard (issues : List Issue) (term : List Char) : List Char × Bool :=
  if (visibleIssues issues term).isEmpty ∧ ¬ term.isEmpty
  then ([], true) else (term, false)

/-- The observable outcome of one `setPriority` intent: the selected task's
resulting fields, the backend `update` call if any (id and argument list),
and whether the row set was rebuilt. -/
structure SetPriorityOutcome where
  issue : Issue
  backendCall : Option (List Char × List (List Char))
  rebuilt : Bool
deriving DecidableEq

/-- The `setPriority` intent handler (`src/src/ui/pages/list.ts` lines
454–461; identical in `src/unnamed/part_007` lines 590–597): when the
pressed digit equals the task's current priority it returns before
mutating, calling the backend, or rebuilding; otherwise it sets the local
priority, issues `update <id> --priority <p>`, and rebuilds the rows. -/
def setPriorityHandler (issue : Issue) (p : Int) : SetPriorityOutcome :=
  if issue.priority = some p then ⟨issue, none, false⟩
  else ⟨{ issue with priority := some p },
        some (issue.id, ["--priority".data, jsNumToChars p]), true⟩

/-- The observable outcome of one `searchApply` intent: the new filter
term, the search-mode flag, the issue set behind the rows that were
rebuilt and rendered (`getItems` maps it one-to-one into rows, preserving
emptiness), and whether the user was notified. -/
structure SearchApplyOutcome where
  filterTerm : List Char
  searching : Bool
  renderedItems : List Issue
  notified : Bool
deriving DecidableEq

/-- The `searchApply` intent handler (`src/src/ui/pages/list.ts` lines
406–411; identical in `src/unnamed/part_007` lines 542–547): trims the
search buffer into the filter term, leaves search mode, and calls
`rebuildAndRender`, whose `getItems` recomputes the visible rows from the
*new* term and renders them at once — with no zero-match check, no
notification, and no clearing of the term.  The zero-match guard of lines
74–78 runs only when the interactive session ends and the enclosing
`while` loop re-enters. -/
def searchApplyHandler (issues : List Issue) (searchBuffer : List Char) : SearchApplyOutcome :=
  { filterTerm := trimChars searchBuffer
    searching := false
    renderedItems := visibleIssues issues (trimChars searchBuffer)
    notified := false }

/-- The hard-break loop of `wrapText` (`src/src/ui/pages/list.ts` lines
214–220): while the escape-stripped remainder is wider than the width, take
a `safeWidth`-character chunk, push it when below the line cap, and break
out (third component `true`) once the cap is reached.  Fuelled by the
word's length; for a positive width the loop drops at least one character
per iteration, so the fuel is exhausted only on the empty remainder, where
the `0` base returns exactly what the JS loop would. -/
def hardBreakFuel (sw maxLines : Nat) :
    Nat → List (List Char) → List Char → List (List Char) × List Char × Bool
  | 0, lines, _ => (lines, [], false)
  | fuel + 1, lines, remaining =>
    if sw < (stripAnsiChars remaining).length then
      let chunk := remaining.take sw
      let lines1 := if lines.length < maxLines then lines ++ [chunk] else lines
      if maxLines ≤ lines1.length then (lines1, remaining, true)
      else hardBreakFuel sw maxLines fuel lines1 (remaining.drop sw)
    else (lines, remaining, false)

/-- The word loop of `wrapText` (`src/src/ui/pages/list.ts` lines 196–223):
greedy fill — extend the current line while the escape-stripped candidate
fits, on overflow flush the line (stopping once `maxLines` lines exist),
hard-break single words wider than the width, and carry the remainder as
the new current line.  On every early exit the JS `currentLine` has just
been reset to `""`. -/
def wrapLoop (sw maxLines : Nat) :
    List (List Char) → List (List Char) → List Char → List (List Char) × List Char
  | [], lines, currentLine => (lines, currentLine)
  | word :: rest, lines, currentLine =>
    let candidate := if currentLine.isEmpty then word else currentLine ++ ' ' :: word
    if (stripAnsiChars candidate).length ≤ sw then
      wrapLoop sw maxLines rest lines candidate
    else
      let lines1 := if ¬ currentLine.isEmpty ∧ lines.length < maxLines
        then lines ++ [currentLine] else lines
      if ¬ currentLine.isEmpty ∧ maxLines ≤ lines1.length then (lines1, [])
      else
        let hb := hardBreakFuel sw maxLines word.length lines1 word
        if hb.2.2 then (hb.1, [])
        else if maxLines ≤ hb.1.length then (hb.1, [])
        else wrapLoop sw maxLines rest hb.1 hb.2.1

/-- Function `wrapText` (`src/src/ui/pages/list.ts` lines 187–227): wrap one raw
line of text to `width` columns, measuring the escape-stripped length,
producing at most `maxLines` lines (`lines.slice(0, maxLines)`); the empty
text yields the single empty line `[""]`. -/
def wrapText (text : List Char) (width maxLines : Nat) : List (List Char) :=
  let sw := max 1 width
  if text.length = 0 then [[]]
  else
    let r := wrapLoop sw maxLines (splitOnChar ' ' text) [] []
    let lines := if ¬ r.2.isEmpty ∧ r.1.length < maxLines
      then r.1 ++ [r.2] else r.1
    lines.take maxLines

end PiTasks

namespace PiTasks

theorem splitOnChar_ne_nil (sep : Char) (l : List Char) : splitOnChar sep l ≠ [] := by
  cases l with
  | nil => simp [splitOnChar]
  | cons c cs => simp only [splitOnChar]; split <;> simp

theorem splitOnChar_not_mem {sep : Char} {l : List Char} (h : sep ∉ l) :
    splitOnChar sep l = [l] := by
  induction l with
  | nil => rfl
  | cons c cs ih =>
    have hc : c ≠ sep := fun hc => h (hc ▸ List.mem_cons_self c cs)
    have hcs : sep ∉ cs := fun hm => h (List.mem_cons_of_mem _ hm)
    simp [splitOnChar, ih hcs, hc]

theorem splitOnChar_append_sep {sep : Char} {a : List Char} (b : List Char)
    (h : sep ∉ a) :
    splitOnChar sep (a ++ sep :: b) = a :: splitOnChar sep b := by
  induction a with
  | nil => simp [splitOnChar]
  | cons c cs ih =>
    have hc : c ≠ sep := fun hc => h (hc ▸ List.mem_cons_self c cs)
    have hcs : sep ∉ cs := fun hm => h (List.mem_cons_of_mem _ hm)
    simp [splitOnChar, ih hcs, hc]

/-- C1 (counterexample): the round-trip claim fails as stated for a summary
that is present but empty.  Neither `"m"` nor `""` contains the separator,
yet `decode(encode("m", ""))` reports the summary as absent, violating
"summary absent exactly when it was absent". -/
theorem decode_encode_fails_on_empty_summary :
    DESCRIPTION_PART_SEPARATOR ∉ "m".data ∧
    decodeDescription (encodeDescription "m".data (some [])) ≠
      ("m".data, some ([] : List Char)) := by
  decide

/-- C1 (amended): for every meta string not containing the separator and
every summary that is absent or a *non-empty* string not containing the
separator, `decodeDescription (encodeDescription meta summary)` returns the
original pair — the summary is absent exactly when it was absent. -/
theorem decode_encode_roundTrip (meta : List Char) (summary : Option (List Char))
    (hm : DESCRIPTION_PART_SEPARATOR ∉ meta)
    (hs : ∀ s, summary = some s → s ≠ [] ∧ DESCRIPTION_PART_SEPARATOR ∉ s) :
    decodeDescription (encodeDescription meta summary) = (meta, summary) := by
  cases summary with
  | none =>
    simp only [encodeDescription, decodeDescription, splitOnChar_not_mem hm]
    simp
  | some s =>
    obtain ⟨hne, hnm⟩ := hs s rfl
    have hempty : s.isEmpty = false := by
      cases s with
      | nil => exact absurd rfl hne
      | cons a as => rfl
    simp only [encodeDescription, hempty, Bool.false_eq_true, if_false,
      decodeDescription, splitOnChar_append_sep _ hm, splitOnChar_not_mem hnm]
    simp

/-- Evaluates `decode_encode_roundTrip` at meta `"st"` and summary `"sum"`. -/
theorem decode_encode_roundTrip_witness :
    decodeDescription (encodeDescription "st".data (some "sum".data)) =
      ("st".data, some "sum".data) :=
  decode_encode_roundTrip "st".data (some "sum".data) (by decide)
    (fun s hs => by cases hs; exact ⟨by decide, by decide⟩)

end PiTasks

namespace PiTasks

/-- C2 (counterexample): the claim says every priority outside {0,…,4} maps
to the literal `"P?"`; the code instead renders `formatTaskPriority 5` as
`"P5"` followed by the reset escape. -/
theorem formatTaskPriority_five_not_questionMark :
    formatTaskPriority (some 5) ≠ "P?".data := by
  decide

/-- C2 (amended): `formatTaskPriority` maps each priority 0–4 to the fixed
two-character badge `"P"+digit` wrapped in that priority's colour escape
(0 red, 1 orange, 2 green, 3 blue, 4 gray) plus reset; `undefined` yields
the literal `"P?"` with no colour; and any other number yields
`"P"+number` followed by the reset escape, with no colour prefix. -/
theorem formatTaskPriority_cases :
    formatTaskPriority none = "P?".data ∧
    formatTaskPriority (some 0) = "\x1b[38;5;196m".data ++ "P0".data ++ ANSI_RESET ∧
    formatTaskPriority (some 1) = "\x1b[38;5;208m".data ++ "P1".data ++ ANSI_RESET ∧
    formatTaskPriority (some 2) = "\x1b[38;5;34m".data ++ "P2".data ++ ANSI_RESET ∧
    formatTaskPriority (some 3) = "\x1b[38;5;33m".data ++ "P3".data ++ ANSI_RESET ∧
    formatTaskPriority (some 4) = "\x1b[38;5;245m".data ++ "P4".data ++ ANSI_RESET ∧
    ∀ p : Int, p ≠ 0 → p ≠ 1 → p ≠ 2 → p ≠ 3 → p ≠ 4 →
      formatTaskPriority (some p) = 'P' :: jsNumToChars p ++ ANSI_RESET := by
  refine ⟨by decide, by decide, by decide, by decide, by decide, by decide, ?_⟩
  intro p h0 h1 h2 h3 h4
  simp [formatTaskPriority, PRIORITY_COLORS, h0, h1, h2, h3, h4]

/-- Evaluates `formatTaskPriority_cases` at the out-of-range priority 7. -/
theorem formatTaskPriority_cases_witness :
    formatTaskPriority (some 7) = 'P' :: jsNumToChars 7 ++ ANSI_RESET :=
  formatTaskPriority_cases.2.2.2.2.2.2 7 (by decide) (by decide) (by decide)
    (by decide) (by decide)

/-- C3 (counterexample): the claim says a term matches when it is a
substring of the status *label* (underscores replaced by spaces).  For an
`in_progress` task, the term `"in progress"` is a substring of the label,
yet `matchesFilter` returns `false`, because the code matches against the
raw status value `"in_progress"`. -/
theorem matchesFilter_misses_status_label :
    matchesFilter
      ⟨"a-1".data, "Fix".data, none, IssueStatus.in_progress, none, none⟩
      "in progress".data = false ∧
    lowerChars "in progress".data <:+:
      lowerChars (formatIssueStatusLabel IssueStatus.in_progress) := by
  constructor
  · decide
  · decide

/-- C3 (amended): for every task and term, `matchesFilter` is true exactly
when the lowercased term is a substring of the lowercased title,
description, id, or *raw status value* (underscores kept, not the
space-separated label); the empty term matches every task, and filtering
with the empty term is no filtering at all. -/
theorem matchesFilter_characterisation (issue : Issue) (term : List Char) :
    (matchesFilter issue term = true ↔
      lowerChars term <:+: lowerChars issue.title ∨
      lowerChars term <:+: lowerChars (issue.description.getD []) ∨
      lowerChars term <:+: lowerChars issue.id ∨
      lowerChars term <:+: lowerChars issue.status.str) ∧
    matchesFilter issue [] = true ∧
    ∀ issues : List Issue, visibleIssues issues [] = issues := by
  refine ⟨?_, ?_, ?_⟩
  · simp [matchesFilter, Bool.or_eq_true, decide_eq_true_iff, or_assoc]
  · simp [matchesFilter, lowerChars, List.nil_infix]
  · intro issues
    simp [visibleIssues]

end PiTasks

namespace PiTasks

/-- C4: a draft that, after trimming the title, equals the task's current
fields exactly (description, status, priority, taskType all equal) produces
an empty patch from `buildTaskUpdate`, and the save path issues no backend
update call. -/
theorem buildTaskUpdate_noop (previous : Task) (draft : TaskDraft)
    (ht : trimChars draft.title = trimChars previous.title)
    (hd : draft.description = previous.description.getD [])
    (hs : draft.status = previous.status)
    (hp : draft.priority = previous.priority)
    (hty : draft.taskType = previous.taskType) :
    buildTaskUpdate previous draft = {} ∧
    editSaveCallsBackend previous draft = false := by
  have hu : buildTaskUpdate previous draft = {} := by
    simp [buildTaskUpdate, ht, hd, hs, hp, hty]
  exact ⟨hu, by simp [editSaveCallsBackend, hu, hasTaskUpdate]⟩

/-- Evaluates `buildTaskUpdate_noop` on a concrete task and an equal draft
whose title carries extra surrounding whitespace. -/
theorem buildTaskUpdate_noop_witness :
    buildTaskUpdate
        ⟨"a-1".data, "Fix".data, some "desc".data, IssueStatus.open_, some 2, some "bug".data⟩
        ⟨" Fix ".data, "desc".data, IssueStatus.open_, some 2, some "bug".data⟩ = {} ∧
    editSaveCallsBackend
        ⟨"a-1".data, "Fix".data, some "desc".data, IssueStatus.open_, some 2, some "bug".data⟩
        ⟨" Fix ".data, "desc".data, IssueStatus.open_, some 2, some "bug".data⟩ = false :=
  buildTaskUpdate_noop _ _ (by decide) (by decide) (by decide) (by decide) (by decide)

/-- C6: serializing the task `{id:"proj-42", title:"Fix login",
status:"open", priority:1}` with no description and no task type yields
exactly the reference string
`task(id=proj-42, title="Fix login", status=open, priority=1, type=task)`;
the missing type is rendered as the default `task`. -/
theorem serializeTask_scenario :
    serializeTask ⟨"proj-42".data, "Fix login".data, none, IssueStatus.open_, some 1, none⟩ =
      "task(id=proj-42, title=\"Fix login\", status=open, priority=1, type=task)".data := by
  decide

/-- C7: in create mode, every draft whose title trims to the empty string is
rejected with the local error `"Title is required"` before any backend call
is assembled; and the concrete draft with title `" New "` is accepted, the
`bd create` invocation receiving the trimmed title `"New"`. -/
theorem createIssue_title_validation :
    (∀ draft : TaskDraft, trimChars draft.title = [] →
      createIssueFirstSave draft = .error "Title is required".data) ∧
    createIssueFirstSave ⟨" New ".data, [], IssueStatus.open_, none, none⟩ =
      .ok ["create".data, "--title".data, "New".data, "--priority".data,
        "2".data, "--type".data, "task".data, "--json".data] := by
  constructor
  · intro draft h
    simp [createIssueFirstSave, h]
  · rfl

/-- Evaluates `createIssue_title_validation` on a draft whose title is all
whitespace. -/
theorem createIssue_title_validation_witness :
    createIssueFirstSave ⟨"   ".data, [], IssueStatus.open_, none, none⟩ =
      .error "Title is required".data :=
  createIssue_title_validation.1 _ (by decide)

/-- C8: the description scroll offset stays within
`[0, max(0, totalWrappedLines − 7)]`: the reset value 0 lies in that
interval, and from any offset in the interval one `scrollDescription`
intent moves by at most one and lands back inside it. -/
theorem scrollDescription_clamped (totalWrapped : Nat) (delta s : Int)
    (h0 : 0 ≤ s) (h1 : s ≤ scrollMaxOffset totalWrapped) :
    (0 ≤ scrollDescriptionStep totalWrapped delta s ∧
     scrollDescriptionStep totalWrapped delta s ≤ scrollMaxOffset totalWrapped ∧
     (scrollDescriptionStep totalWrapped delta s - s).natAbs ≤ 1) ∧
    (0 ≤ (0 : Int) ∧ (0 : Int) ≤ scrollMaxOffset totalWrapped) := by
  unfold scrollDescriptionStep scrollMaxOffset at *
  split_ifs with hA hB <;>
    refine ⟨⟨by omega, by omega, by omega⟩, by omega, by omega⟩

/-- Evaluates `scrollDescription_clamped` with 20 wrapped lines, a forward
scroll, and offset 5. -/
theorem scrollDescription_clamped_witness :
    (0 ≤ scrollDescriptionStep 20 1 5 ∧
     scrollDescriptionStep 20 1 5 ≤ scrollMaxOffset 20 ∧
     (scrollDescriptionStep 20 1 5 - 5).natAbs ≤ 1) ∧
    (0 ≤ (0 : Int) ∧ (0 : Int) ≤ scrollMaxOffset 20) :=
  scrollDescription_clamped 20 1 5 (by decide) (by decide)

/-- C9 (counterexample): the claim fails on the in-session search path.
With the non-empty task set `[a-1 "Fix"]`, applying the freshly typed term
`"zzz"` — non-empty and matching nothing — renders the empty filtered item
set with the term kept and no notification: an empty filtered list *is*
shown while the underlying task set is non-empty, with neither a notify
nor a clear. -/
theorem searchApply_renders_empty_filtered :
    ([⟨"a-1".data, "Fix".data, none, IssueStatus.open_, none, none⟩] : List Issue) ≠ [] ∧
    trimChars "zzz".data ≠ [] ∧
    searchApplyHandler [⟨"a-1".data, "Fix".data, none, IssueStatus.open_, none, none⟩]
      "zzz".data = ⟨"zzz".data, false, [], false⟩ := by
  decide

/-- C9 (amended): the notify-and-clear behaviour holds exactly at the head
of the list loop: there, a non-empty filter term with zero matching tasks
makes the controller notify the user and clear the term instead of
rendering, and whenever that guard lets rendering proceed on a non-empty
task set, the loop head's rendered visible set is non-empty.  The
in-session `searchApply` intent, however, renders the row set computed
from the freshly trimmed term immediately — keeping the term and
notifying nothing even when that set is empty — until the session next
returns to the loop head. -/
theorem filterGuard_loopHead_searchApply (issues : List Issue) (term searchBuffer : List Char) :
    (term ≠ [] → visibleIssues issues term = [] →
      filterGuard issues term = ([], true)) ∧
    (issues ≠ [] → (filterGuard issues term).2 = false →
      visibleIssues issues (filterGuard issues term).1 ≠ []) ∧
    (trimChars searchBuffer ≠ [] → visibleIssues issues (trimChars searchBuffer) = [] →
      searchApplyHandler issues searchBuffer =
        ⟨trimChars searchBuffer, false, [], false⟩) := by
  refine ⟨?_, ?_, ?_⟩
  · intro hterm hvis
    simp [filterGuard, hvis, hterm]
  · intro hissues hguard
    by_cases hc : (visibleIssues issues term).isEmpty ∧ ¬ term.isEmpty
    · simp [filterGuard, hc] at hguard
    · have hg : filterGuard issues term = (term, false) := by
        simp only [filterGuard, if_neg hc]
      rw [hg]
      simp only []
      rcases Decidable.em (term.isEmpty) with hte | hte
      · have : term = [] := by simpa [List.isEmpty_iff] using hte
        simpa [visibleIssues, this] using hissues
      · have : ¬ (visibleIssues issues term).isEmpty := fun hv => hc ⟨hv, hte⟩
        simpa [List.isEmpty_iff] using this
  · intro _ hvis
    simp [searchApplyHandler, hvis]

/-- Evaluates `filterGuard_loopHead_searchApply` on a one-task list and the
no-match term `"zzz"`: the loop head clears the term with a notification,
while `searchApply` renders the empty set with the term kept and no
notification. -/
theorem filterGuard_loopHead_searchApply_witness :
    filterGuard [⟨"a-1".data, "Fix".data, none, IssueStatus.open_, none, none⟩]
      "zzz".data = ([], true) ∧
    searchApplyHandler [⟨"a-1".data, "Fix".data, none, IssueStatus.open_, none, none⟩]
      "zzz".data = ⟨"zzz".data, false, [], false⟩ :=
  ⟨(filterGuard_loopHead_searchApply _ "zzz".data "zzz".data).1 (by decide) (by decide),
   (filterGuard_loopHead_searchApply _ "zzz".data "zzz".data).2.2 (by decide) (by decide)⟩

/-- C10: pressing a priority digit equal to the selected task's current
priority is a complete no-op — fields unchanged, no backend call, no row
rebuild; when the digit differs, the local priority is set, exactly one
backend `update --priority` call is issued, and the rows are rebuilt. -/
theorem setPriority_frame (issue : Issue) (p : Int) :
    (issue.priority = some p →
      setPriorityHandler issue p = ⟨issue, none, false⟩) ∧
    (issue.priority ≠ some p →
      setPriorityHandler issue p =
        ⟨{ issue with priority := some p },
         some (issue.id, ["--priority".data, jsNumToChars p]), true⟩) := by
  constructor <;> intro h <;> simp [setPriorityHandler, h]

/-- Evaluates `setPriority_frame` on a task whose priority already is 2:
pressing `2` changes nothing and issues no call. -/
theorem setPriority_frame_witness :
    setPriorityHandler
      ⟨"a-1".data, "Fix".data, none, IssueStatus.open_, some 2, none⟩ 2 =
      ⟨⟨"a-1".data, "Fix".data, none, IssueStatus.open_, some 2, none⟩, none, false⟩ :=
  (setPriority_frame _ _).1 (by decide)

end PiTasks

namespace PiTasks

theorem skipCsiBody_length_le : ∀ {l r : List Char}, skipCsiBody l = some r → r.length ≤ l.length := by
  intro l
  induction l with
  | nil => intro r h; simp [skipCsiBody] at h
  | cons c cs ih =>
    intro r h
    simp only [skipCsiBody] at h
    split at h
    · exact le_trans (ih h) (Nat.le_succ _)
    · split at h
      · obtain rfl : cs = r := by simpa using h
        exact Nat.le_succ _
      · simp at h

theorem matchCsi_length_le : ∀ {l r : List Char}, matchCsi l = some r → r.length ≤ l.length := by
  intro l
  cases l with
  | nil => intro r h; simp [matchCsi] at h
  | cons c cs =>
    intro r h
    simp only [matchCsi] at h
    split at h
    · exact le_trans (skipCsiBody_length_le h) (Nat.le_succ _)
    · simp at h

theorem stripAnsiFuel_length_le : ∀ (fuel : Nat) (l : List Char),
    (stripAnsiFuel fuel l).length ≤ l.length := by
  intro fuel
  induction fuel with
  | zero => intro l; simp [stripAnsiFuel]
  | succ f ih =>
    intro l
    cases l with
    | nil => simp [stripAnsiFuel]
    | cons c cs =>
      simp only [stripAnsiFuel]
      split
      · cases hm : matchCsi cs with
        | some rest =>
          simp only [hm]
          exact le_trans (ih rest) (le_trans (matchCsi_length_le hm) (Nat.le_succ _))
        | none =>
          simp only [hm, List.length_cons]
          exact Nat.succ_le_succ (ih cs)
      · simp only [List.length_cons]
        exact Nat.succ_le_succ (ih cs)

theorem stripAnsiChars_length_le (l : List Char) : (stripAnsiChars l).length ≤ l.length :=
  stripAnsiFuel_length_le l.length l

theorem stripAnsiChars_take_le (remaining : List Char) (sw : Nat) :
    (stripAnsiChars (remaining.take sw)).length ≤ sw :=
  le_trans (stripAnsiChars_length_le _) (by simp [List.length_take])

theorem hardBreakFuel_bound (sw maxLines : Nat) :
    ∀ (fuel : Nat) (lines : List (List Char)) (remaining : List Char),
    (∀ x ∈ lines, (stripAnsiChars x).length ≤ sw) →
    ((∀ x ∈ (hardBreakFuel sw maxLines fuel lines remaining).1,
        (stripAnsiChars x).length ≤ sw) ∧
     ((hardBreakFuel sw maxLines fuel lines remaining).2.2 = false →
        (stripAnsiChars (hardBreakFuel sw maxLines fuel lines remaining).2.1).length ≤ sw)) := by
  intro fuel
  induction fuel with
  | zero =>
    intro lines remaining hl
    exact ⟨hl, fun _ => by simp [stripAnsiChars, stripAnsiFuel]⟩
  | succ f ih =>
    intro lines remaining hl
    by_cases hgt : sw < (stripAnsiChars remaining).length
    · have hl1 : ∀ x ∈ (if lines.length < maxLines
          then lines ++ [remaining.take sw] else lines),
          (stripAnsiChars x).length ≤ sw := by
        split
        · intro x hx
          rcases List.mem_append.1 hx with h | h
          · exact hl x h
          · obtain rfl : x = remaining.take sw := by simpa using h
            exact stripAnsiChars_take_le remaining sw
        · exact hl
      by_cases hcap : maxLines ≤ (if lines.length < maxLines
          then lines ++ [remaining.take sw] else lines).length
      · have heq : hardBreakFuel sw maxLines (f + 1) lines remaining =
            ((if lines.length < maxLines then lines ++ [remaining.take sw] else lines),
              remaining, true) := by
          simp only [hardBreakFuel]
          rw [if_pos hgt, if_pos hcap]
        rw [heq]
        exact ⟨hl1, fun h => by simp at h⟩
      · have heq : hardBreakFuel sw maxLines (f + 1) lines remaining =
            hardBreakFuel sw maxLines f
              (if lines.length < maxLines then lines ++ [remaining.take sw] else lines)
              (remaining.drop sw) := by
          simp only [hardBreakFuel]
          rw [if_pos hgt, if_neg hcap]
        rw [heq]
        exact ih _ _ hl1
    · have heq : hardBreakFuel sw maxLines (f + 1) lines remaining =
          (lines, remaining, false) := by
        simp only [hardBreakFuel]
        rw [if_neg hgt]
      rw [heq]
      exact ⟨hl, fun _ => le_of_not_lt hgt⟩

theorem wrapLoop_bound (sw maxLines : Nat) :
    ∀ (words lines : List (List Char)) (currentLine : List Char),
    (∀ x ∈ lines, (stripAnsiChars x).length ≤ sw) →
    (stripAnsiChars currentLine).length ≤ sw →
    ((∀ x ∈ (wrapLoop sw maxLines words lines currentLine).1,
        (stripAnsiChars x).length ≤ sw) ∧
     (stripAnsiChars (wrapLoop sw maxLines words lines currentLine).2).length ≤ sw) := by
  intro words
  induction words with
  | nil => intro lines cl hl hc; exact ⟨hl, hc⟩
  | cons word rest ih =>
    intro lines cl hl hc
    by_cases hfit :
        (stripAnsiChars (if cl.isEmpty then word else cl ++ ' ' :: word)).length ≤ sw
    · have heq : wrapLoop sw maxLines (word :: rest) lines cl =
          wrapLoop sw maxLines rest lines (if cl.isEmpty then word else cl ++ ' ' :: word) := by
        simp only [wrapLoop]
        rw [if_pos hfit]
      rw [heq]
      exact ih _ _ hl hfit
    · have hl1 : ∀ x ∈ (if ¬ cl.isEmpty ∧ lines.length < maxLines
          then lines ++ [cl] else lines), (stripAnsiChars x).length ≤ sw := by
        split
        · intro x hx
          rcases List.mem_append.1 hx with h | h
          · exact hl x h
          · obtain rfl : x = cl := by simpa using h
            exact hc
        · exact hl
      by_cases hbrk : ¬ cl.isEmpty ∧ maxLines ≤ (if ¬ cl.isEmpty ∧ lines.length < maxLines
          then lines ++ [cl] else lines).length
      · have heq : wrapLoop sw maxLines (word :: rest) lines cl =
            ((if ¬ cl.isEmpty ∧ lines.length < maxLines then lines ++ [cl] else lines), []) := by
          simp only [wrapLoop]
          rw [if_neg hfit, if_pos hbrk]
        rw [heq]
        exact ⟨hl1, by simp [stripAnsiChars, stripAnsiFuel]⟩
      · obtain ⟨hhb1, hhb2⟩ := hardBreakFuel_bound sw maxLines word.length
          (if ¬ cl.isEmpty ∧ lines.length < maxLines then lines ++ [cl] else lines) word hl1
        by_cases hb : (hardBreakFuel sw maxLines word.length
            (if ¬ cl.isEmpty ∧ lines.length < maxLines then lines ++ [cl] else lines) word).2.2
        · have heq : wrapLoop sw maxLines (word :: rest) lines cl =
              ((hardBreakFuel sw maxLines word.length
                (if ¬ cl.isEmpty ∧ lines.length < maxLines then lines ++ [cl] else lines)
                word).1, []) := by
            simp only [wrapLoop]
            rw [if_neg hfit, if_neg hbrk, if_pos hb]
          rw [heq]
          exact ⟨hhb1, by simp [stripAnsiChars, stripAnsiFuel]⟩
        · by_cases hcap : maxLines ≤ (hardBreakFuel sw maxLines word.length
              (if ¬ cl.isEmpty ∧ lines.length < maxLines then lines ++ [cl] else lines)
              word).1.length
          · have heq : wrapLoop sw maxLines (word :: rest) lines cl =
                ((hardBreakFuel sw maxLines word.length
                  (if ¬ cl.isEmpty ∧ lines.length < maxLines then lines ++ [cl] else lines)
                  word).1, []) := by
              simp only [wrapLoop]
              rw [if_neg hfit, if_neg hbrk, if_neg (by simpa using hb), if_pos hcap]
            rw [heq]
            exact ⟨hhb1, by simp [stripAnsiChars, stripAnsiFuel]⟩
          · have heq : wrapLoop sw maxLines (word :: rest) lines cl =
                wrapLoop sw maxLines rest
                  (hardBreakFuel sw maxLines word.length
                    (if ¬ cl.isEmpty ∧ lines.length < maxLines then lines ++ [cl] else lines)
                    word).1
                  (hardBreakFuel sw maxLines word.length
                    (if ¬ cl.isEmpty ∧ lines.length < maxLines then lines ++ [cl] else lines)
                    word).2.1 := by
              simp only [wrapLoop]
              rw [if_neg hfit, if_neg hbrk, if_neg (by simpa using hb), if_neg hcap]
            rw [heq]
            exact ih _ _ hhb1 (hhb2 (by simpa using hb))

/-- C5: for every input text, positive width, and positive `maxLines`,
`wrapText` returns at most `maxLines` lines, each of escape-stripped length
at most `width` (a hard-broken chunk is `width` raw characters, so its
stripped length also satisfies the bound). -/
theorem wrapText_bounded (text : List Char) (width maxLines : Nat)
    (hw : 1 ≤ width) (hm : 1 ≤ maxLines) :
    (wrapText text width maxLines).length ≤ maxLines ∧
    ∀ l ∈ wrapText text width maxLines, (stripAnsiChars l).length ≤ width := by
  have hsw : max 1 width = width := Nat.max_eq_right hw
  by_cases h0 : text.length = 0
  · have heq : wrapText text width maxLines = [[]] := by
      simp only [wrapText]
      rw [if_pos h0]
    rw [heq]
    refine ⟨by simpa using hm, ?_⟩
    intro l hmem
    obtain rfl : l = [] := by simpa using hmem
    simp [stripAnsiChars, stripAnsiFuel]
  · obtain ⟨hlines, hcl⟩ := wrapLoop_bound (max 1 width) maxLines
      (splitOnChar ' ' text) [] [] (by simp) (by simp [stripAnsiChars, stripAnsiFuel])
    have heq : wrapText text width maxLines =
        (if ¬ (wrapLoop (max 1 width) maxLines (splitOnChar ' ' text) [] []).2.isEmpty ∧
            (wrapLoop (max 1 width) maxLines (splitOnChar ' ' text) [] []).1.length < maxLines
         then (wrapLoop (max 1 width) maxLines (splitOnChar ' ' text) [] []).1 ++
            [(wrapLoop (max 1 width) maxLines (splitOnChar ' ' text) [] []).2]
         else (wrapLoop (max 1 width) maxLines (splitOnChar ' ' text) [] []).1).take maxLines := by
      simp only [wrapText]
      rw [if_neg h0]
    rw [heq]
    constructor
    · simp [List.length_take]
    · intro l hmem
      have hmem' := List.take_subset _ _ hmem
      rw [← hsw]
      split at hmem'
      · rcases List.mem_append.1 hmem' with h | h
        · exact hlines l h
        · obtain rfl : l = _ := by simpa using h
          exact hcl
      · exact hlines l hmem'

/-- Evaluates `wrapText_bounded` at text `"hello world foo"`, width 11,
max 2 lines. -/
theorem wrapText_bounded_witness :
    (wrapText "hello world foo".data 11 2).length ≤ 2 ∧
    ∀ l ∈ wrapText "hello world foo".data 11 2, (stripAnsiChars l).length ≤ 11 :=
  wrapText_bounded "hello world foo".data 11 2 (by decide) (by decide)

end PiTasks
